import Mathlib

/-!
Shallow embedding of the session engine in
`src/packages/react/src/useGeminiLive.ts` (gemini-live-react), together with
proofs settling the frozen claims about that code.

Conventions of the embedding:
* JS strings are `List Char`; JS numbers that the code treats as integers are
  `ℕ`/`ℤ`; audio samples are `ℚ` (exact arithmetic in place of IEEE floats).
* Mutable refs become fields of explicit state records; each event handler or
  callback becomes a pure function from the old state (plus event data) to the
  new state and the list of outbound messages or scheduled actions it produces.
-/

namespace GeminiLive

/-- Truncation toward zero, as performed when a JS number is stored into an
`Int16Array` (the value is always in int16 range here, so no wrap-around). -/
def jsTrunc (q : ℚ) : ℤ := if q < 0 then ⌈q⌉ else ⌊q⌋

/-- One sample of the AudioWorklet encode path (`AudioProcessor.process`):
`const s = Math.max(-1, Math.min(1, float32[i])); int16[i] = s < 0 ? s * 0x8000 : s * 0x7FFF`. -/
def encodeSample (s : ℚ) : ℤ :=
  let c := max (-1) (min 1 s)
  if c < 0 then jsTrunc (c * 0x8000) else jsTrunc (c * 0x7FFF)

/-- One sample of the playback decode path in `playAudio`:
`const sample = dataView.getInt16(i * 2, true); float32[i] = sample / 32768.0`. -/
def decodeSample (i : ℤ) : ℚ := (i : ℚ) / 32768

/-- The worklet's Float32 → Int16 PCM conversion, samplewise. -/
def encodePCM (x : List ℚ) : List ℤ := x.map encodeSample

/-- The `playAudio` Int16 → Float32 conversion, samplewise. -/
def decodePCM (b : List ℤ) : List ℚ := b.map decodeSample

/-- `resampleAudio(input, sourceSampleRate, targetSampleRate)`: identity fast
path when the rates agree, otherwise linear interpolation with
`outputLength = Math.floor(input.length / ratio)` where
`ratio = sourceSampleRate / targetSampleRate`. -/
def resampleAudio (input : List ℚ) (sourceSampleRate targetSampleRate : ℕ) : List ℚ :=
  if sourceSampleRate = targetSampleRate then input
  else
    let r : ℚ := (sourceSampleRate : ℚ) / (targetSampleRate : ℚ)
    let outputLength : ℕ := ⌊(input.length : ℚ) / r⌋₊
    (List.range outputLength).map (fun (i : ℕ) =>
      let srcIndex : ℚ := (i : ℚ) * r
      let srcIndexFloor : ℕ := ⌊srcIndex⌋₊
      let srcIndexCeil : ℕ := min (srcIndexFloor + 1) (input.length - 1)
      let t : ℚ := srcIndex - (srcIndexFloor : ℚ)
      input.getD srcIndexFloor 0 * (1 - t) + input.getD srcIndexCeil 0 * t)

/-! ### Theorems: PCM codec (C5) and resampler (C6) -/

/-- Samplewise round-trip bound for the codec: with the asymmetric encode
scaling (×0x8000 for negatives, ×0x7FFF otherwise) and the symmetric decode
division by 32768, the round-trip error stays within two quantization steps. -/
theorem roundtripSample (a : ℚ) (h : |a| ≤ 1) :
    |decodeSample (encodeSample a) - a| ≤ 2 / 32768 := by
  obtain ⟨h1, h2⟩ := abs_le.mp h
  have hc : max (-1) (min 1 a) = a := by rw [min_eq_right h2, max_eq_right h1]
  unfold encodeSample
  simp only [hc]
  by_cases ha : a < 0
  · have hneg : a * 0x8000 < 0 := mul_neg_of_neg_of_pos ha (by norm_num)
    rw [if_pos ha, jsTrunc, if_pos hneg, decodeSample]
    have hb1 : (a * 0x8000 : ℚ) ≤ ⌈(a * 0x8000 : ℚ)⌉ := Int.le_ceil _
    have hb2 : ((⌈(a * 0x8000 : ℚ)⌉ : ℤ) : ℚ) < a * 0x8000 + 1 := Int.ceil_lt_add_one _
    rw [abs_le]
    constructor <;> push_cast at hb1 hb2 ⊢ <;> [linarith; linarith]
  · have ha' : (0:ℚ) ≤ a := le_of_not_lt ha
    have hnn : ¬ (a * 0x7FFF < 0) := by push_neg; positivity
    rw [if_neg ha, jsTrunc, if_neg hnn, decodeSample]
    have hb1 : ((⌊(a * 0x7FFF : ℚ)⌋ : ℤ) : ℚ) ≤ a * 0x7FFF := Int.floor_le _
    have hb2 : (a * 0x7FFF : ℚ) < ⌊(a * 0x7FFF : ℚ)⌋ + 1 := Int.lt_floor_add_one _
    rw [abs_le]
    constructor <;> push_cast at hb1 hb2 ⊢ <;> [linarith; linarith]

/-- Evaluation of the encoder at the sample 0.9999: the clamp is the identity,
the non-negative branch scales by 0x7FFF = 32767 and truncation yields 32763. -/
theorem encodeSampleAtPoint9999 : encodeSample ((9999 : ℚ)/10000) = 32763 := by
  unfold encodeSample jsTrunc
  rw [min_eq_right (by norm_num), max_eq_right (by norm_num)]
  rw [if_neg (by norm_num), if_neg (by norm_num)]
  rw [show ((9999:ℚ)/10000 * 0x7FFF) = 327637233/10000 by norm_num]
  norm_num [Int.floor_eq_iff]

/-- C5, counterexample: the round-trip is NOT within one quantization step
(1/32768): at the in-range sample 0.9999 the encoder scales by 0x7FFF = 32767
but the decoder divides by 32768, and the error 17232/327680000 exceeds
1/32768 = 10000/327680000. -/
theorem pcmRoundtripOneStepCounterexample :
    ¬ List.Forall₂ (fun y a => |y - a| ≤ 1 / 32768)
      (decodePCM (encodePCM [(9999 : ℚ)/10000])) [(9999 : ℚ)/10000] := by
  intro hfa
  rw [encodePCM, decodePCM, List.map_cons, List.map_cons, encodeSampleAtPoint9999] at hfa
  cases hfa with
  | cons hhead _ =>
    rw [decodeSample] at hhead
    rw [abs_sub_comm, abs_of_nonneg (by norm_num)] at hhead
    norm_num at hhead

/-- C5 (amended): for every Float32 sample array whose samples lie in [-1,1],
decoding the encoding yields an array equal to the input elementwise within
TWO quantization steps (2/32768); one step is not achievable for positive
samples because encode scales by 0x7FFF while decode divides by 0x8000. -/
theorem pcmRoundtripWithinTwoSteps (x : List ℚ) (h : ∀ a ∈ x, |a| ≤ 1) :
    List.Forall₂ (fun y a => |y - a| ≤ 2 / 32768) (decodePCM (encodePCM x)) x := by
  rw [decodePCM, encodePCM, List.map_map]
  induction x with
  | nil => exact List.Forall₂.nil
  | cons a l ih =>
    rw [List.map_cons]
    exact List.Forall₂.cons (roundtripSample a (h a (by simp)))
      (ih (fun b hb => h b (by simp [hb])))

/-- C5 witness: the two-step round-trip bound holds at the concrete array
[1, -1, 1/2]. -/
theorem pcmRoundtripWithinTwoSteps_witness :
    List.Forall₂ (fun y a => |y - a| ≤ 2 / 32768)
      (decodePCM (encodePCM [(1 : ℚ), -1, 1/2])) [(1 : ℚ), -1, 1/2] :=
  pcmRoundtripWithinTwoSteps [(1 : ℚ), -1, 1/2] (by
    intro a ha
    simp only [List.mem_cons, List.not_mem_nil, or_false] at ha
    rcases ha with h | h | h <;> rw [h] <;> norm_num [abs_le])

/-- C6: the output of `resampleAudio(x, srcRate, dstRate)` has length
floor(len(x) * dstRate / srcRate), and when the two rates agree the input is
returned unchanged (identity fast path). -/
theorem resampleAudioLength (input : List ℚ) (s d : ℕ) (hs : 0 < s) (hd : 0 < d) :
    (resampleAudio input s d).length = input.length * d / s ∧
    resampleAudio input s s = input := by
  refine ⟨?_, by rw [resampleAudio, if_pos rfl]⟩
  by_cases h : s = d
  · subst h
    rw [resampleAudio, if_pos rfl, Nat.mul_div_cancel _ hs]
  · rw [resampleAudio, if_neg h, List.length_map, List.length_range]
    have hcast : ((input.length : ℚ)) / ((s : ℚ)/(d : ℚ))
        = ((input.length * d : ℕ) : ℚ) / ((s:ℕ) : ℚ) := by
      have hs' : ((s:ℚ)) ≠ 0 := by positivity
      have hd' : ((d:ℚ)) ≠ 0 := by positivity
      push_cast
      field_simp
    rw [hcast, Nat.floor_div_nat, Nat.floor_natCast]

/-- C6 witness: resampling a 3-sample buffer from 3 Hz to 2 Hz yields
floor(3*2/3) = 2 samples, and resampling 3 Hz to 3 Hz is the identity. -/
theorem resampleAudioLength_witness :
    (resampleAudio [(1 : ℚ), 2, 3] 3 2).length = [(1 : ℚ), 2, 3].length * 2 / 3 ∧
    resampleAudio [(1 : ℚ), 2, 3] 3 3 = [(1 : ℚ), 2, 3] :=
  resampleAudioLength [(1 : ℚ), 2, 3] 3 2 (by decide) (by decide)

/-! ### `parseSampleRate` (C9): the regex scan `mimeType.match(/rate=(\d+)/)` -/

/-- The `\d` character class of the regex: an ASCII decimal digit. -/
def isDigitChar (c : Char) : Bool := '0' ≤ c && c ≤ '9'

/-- Maximal run of digits at the head of the list (the `\d+` capture group). -/
def takeDigits : List Char → List Char
  | [] => []
  | c :: r => if isDigitChar c then c :: takeDigits r else []

/-- `parseInt(match[1], 10)` on a list of decimal digit characters. -/
def digitsToNat (l : List Char) : ℕ :=
  l.foldl (fun n c => 10 * n + (c.toNat - '0'.toNat)) 0

/-- The literal part of the regex pattern. -/
def rateKey : List Char := ['r', 'a', 't', 'e', '=']

/-- Does the regex `/rate=(\d+)/` match at the head of the list? (Requires the
literal `rate=` followed by at least one digit.) -/
def startsWithRate : List Char → Bool
  | c1 :: c2 :: c3 :: c4 :: c5 :: c6 :: _ =>
      c1 == 'r' && c2 == 'a' && c3 == 't' && c4 == 'e' && c5 == '=' && isDigitChar c6
  | _ => false

/-- Left-to-right regex scan: at the first position where `rate=` is followed
by a digit, capture the maximal digit run and parse it. -/
def findRateMatch : List Char → Option ℕ
  | [] => none
  | c :: rest =>
      if startsWithRate (c :: rest) then
        some (digitsToNat (takeDigits ((c :: rest).drop 5)))
      else findRateMatch rest

/-- `parseSampleRate(mimeType)`: the captured integer, defaulting to 24000
when the regex does not match. -/
def parseSampleRate (mimeType : List Char) : ℕ := (findRateMatch mimeType).getD 24000

/-- Does `pat` occur at the head of the second list? -/
def startsWithSeq : List Char → List Char → Bool
  | [], _ => true
  | _ :: _, [] => false
  | p :: ps, c :: cs => p == c && startsWithSeq ps cs

/-- Does `pat` occur anywhere in the list (substring test)? -/
def containsSeq (pat : List Char) : List Char → Bool
  | [] => startsWithSeq pat []
  | c :: rest => startsWithSeq pat (c :: rest) || containsSeq pat rest

/-- A position where the regex matches in particular carries the literal
`rate=`. -/
theorem startsWithRate_imp_seq (l : List Char) (h : startsWithRate l = true) :
    startsWithSeq rateKey l = true := by
  match l with
  | [] => simp [startsWithRate] at h
  | [c1] => simp [startsWithRate] at h
  | [c1, c2] => simp [startsWithRate] at h
  | [c1, c2, c3] => simp [startsWithRate] at h
  | [c1, c2, c3, c4] => simp [startsWithRate] at h
  | [c1, c2, c3, c4, c5] => simp [startsWithRate] at h
  | c1 :: c2 :: c3 :: c4 :: c5 :: c6 :: rest =>
      simp only [startsWithRate, Bool.and_eq_true, beq_iff_eq] at h
      simp_all [rateKey, startsWithSeq]

/-- When the string contains no `rate=` substring at all, the scan fails. -/
theorem findRateMatch_none (s : List Char) (h : containsSeq rateKey s = false) :
    findRateMatch s = none := by
  induction s with
  | nil => rfl
  | cons c rest ih =>
    rw [containsSeq, Bool.or_eq_false_iff] at h
    rw [findRateMatch]
    have hsw : startsWithRate (c :: rest) = false := by
      cases hs : startsWithRate (c :: rest) with
      | false => rfl
      | true => rw [startsWithRate_imp_seq _ hs] at h; exact absurd h.1 (by simp)
    rw [if_neg (by rw [hsw]; exact Bool.false_ne_true)]
    exact ih h.2

/-- The digit capture stops exactly at the first non-digit. -/
theorem takeDigits_append (ds q : List Char) (hds : ∀ c ∈ ds, isDigitChar c = true)
    (hq : isDigitChar (q.headD ';') = false) : takeDigits (ds ++ q) = ds := by
  induction ds with
  | nil =>
    rw [List.nil_append]
    match q with
    | [] => rfl
    | c :: r =>
      rw [List.headD_cons] at hq
      rw [takeDigits, if_neg (by rw [hq]; exact Bool.false_ne_true)]
  | cons c r ih =>
    rw [List.cons_append, takeDigits, if_pos (hds c (by simp))]
    rw [ih (fun b hb => hds b (by simp [hb]))]

/-- On a string shaped `p ++ "rate=" ++ digits ++ rest` whose prefix `p`
carries no `rate=`, the scan captures exactly those digits. -/
theorem findRateMatch_append (p ds q : List Char)
    (hp : containsSeq rateKey p = false) (hne : ds ≠ [])
    (hds : ∀ c ∈ ds, isDigitChar c = true)
    (hq : isDigitChar (q.headD ';') = false) :
    findRateMatch (p ++ (rateKey ++ (ds ++ q))) = some (digitsToNat ds) := by
  induction p with
  | nil =>
    obtain ⟨d, ds', rfl⟩ : ∃ d ds', ds = d :: ds' := by
      cases ds with
      | nil => exact absurd rfl hne
      | cons d ds' => exact ⟨d, ds', rfl⟩
    have hd : isDigitChar d = true := hds d (by simp)
    simp only [rateKey, List.nil_append, List.cons_append]
    rw [findRateMatch, if_pos]
    · rw [List.drop_succ_cons, List.drop_succ_cons, List.drop_succ_cons,
        List.drop_succ_cons, List.drop_succ_cons, List.drop_zero]
      rw [show d :: (ds' ++ q) = (d :: ds') ++ q from rfl]
      rw [takeDigits_append (d :: ds') q hds hq]
    · simp [startsWithRate, hd]
  | cons c p' ih =>
    rw [containsSeq, Bool.or_eq_false_iff] at hp
    have hfalse : startsWithRate (c :: (p' ++ (rateKey ++ (ds ++ q)))) = false := by
      match p' with
      | [] => simp [rateKey, startsWithRate]
      | [c2] => simp [rateKey, startsWithRate]
      | [c2, c3] => simp [rateKey, startsWithRate]
      | [c2, c3, c4] => simp [rateKey, startsWithRate]
      | c2 :: c3 :: c4 :: c5 :: p'' =>
        obtain ⟨x, l2, hx⟩ := List.exists_cons_of_ne_nil
          (show p'' ++ (rateKey ++ (ds ++ q)) ≠ [] by simp [rateKey])
        have hsw := hp.1
        simp only [List.cons_append, List.nil_append] at hx ⊢
        rw [hx]
        cases hR : startsWithRate (c :: c2 :: c3 :: c4 :: c5 :: x :: l2) with
        | false => rfl
        | true =>
          simp only [startsWithRate, Bool.and_eq_true, beq_iff_eq] at hR
          simp_all [startsWithSeq, rateKey]
    rw [List.cons_append]
    rw [show findRateMatch (c :: (p' ++ (rateKey ++ (ds ++ q)))) =
        if startsWithRate (c :: (p' ++ (rateKey ++ (ds ++ q)))) then
          some (digitsToNat (takeDigits ((c :: (p' ++ (rateKey ++ (ds ++ q)))).drop 5)))
        else findRateMatch (p' ++ (rateKey ++ (ds ++ q))) from rfl]
    rw [if_neg (by rw [hfalse]; exact Bool.false_ne_true)]
    exact ih hp.2

/-- C9: `parseSampleRate` returns the integer following the first `rate=`
substring when one (followed by digits) is present, and 24000 otherwise — so a
mimeType with no rate parameter is treated as 24000 Hz rather than rejected. -/
theorem parseSampleRateSpec (s p ds q : List Char)
    (hs : containsSeq rateKey s = false)
    (hp : containsSeq rateKey p = false) (hne : ds ≠ [])
    (hds : ∀ c ∈ ds, isDigitChar c = true)
    (hq : isDigitChar (q.headD ';') = false) :
    parseSampleRate s = 24000 ∧
    parseSampleRate (p ++ (rateKey ++ (ds ++ q))) = digitsToNat ds := by
  constructor
  · rw [parseSampleRate, findRateMatch_none s hs]; rfl
  · rw [parseSampleRate, findRateMatch_append p ds q hp hne hds hq]; rfl

/-- C9 witness: `audio/pcm` (no rate parameter) parses as 24000, and
`audio/L16;rate=44100` parses as 44100. -/
theorem parseSampleRateSpec_witness :
    parseSampleRate "audio/pcm".toList = 24000 ∧
    parseSampleRate ("audio/L16;".toList ++ (rateKey ++ (['4','4','1','0','0'] ++ []))) =
      digitsToNat ['4','4','1','0','0'] :=
  parseSampleRateSpec "audio/pcm".toList "audio/L16;".toList ['4','4','1','0','0'] []
    (by decide) (by decide) (by decide) (by decide) (by decide)

/-! ### Transcript accumulator (C4)

The `input_transcription` / `output_transcription` cases of `socket.onmessage`
run the same per-channel logic: append the fragment to the channel's pending
buffer, publish `pending.trim()` as the streaming value, clear any pending
debounce timer and start a new one for `transcriptDebounceMs`; when a timer
fires, a non-blank `pending.trim()` is emitted as a finalized Transcript and
the buffer cleared (a blank buffer is kept), and the streaming value is
cleared either way.  The simulation below replays a time-stamped fragment
sequence for one channel and returns the finalized records `(time, text)`;
a fragment arriving strictly before the running timer's deadline cancels it. -/

/-- The whitespace class trimmed by `String.prototype.trim` (restricted to the
ASCII whitespace actually occurring in transcripts). -/
def jsWhitespace (c : Char) : Bool := c == ' ' || c == '\t' || c == '\n' || c == '\r'

/-- `s.trim()` on a JS string as a character list. -/
def jsTrim (l : List Char) : List Char :=
  ((l.dropWhile jsWhitespace).reverse.dropWhile jsWhitespace).reverse

/-- Replay one transcript channel: `pending` is the buffered text whose
debounce timer is armed for `t + debounce`; each list entry is the arrival
time and text of the next fragment. -/
def runChannel (debounce : ℕ) : List Char → ℕ → List (ℕ × List Char) → List (ℕ × List Char)
  | pending, t, [] =>
      if jsTrim pending = [] then [] else [(t + debounce, jsTrim pending)]
  | pending, t, (t2, s) :: rest =>
      if t2 < t + debounce then runChannel debounce (pending ++ s) t2 rest
      else
        if jsTrim pending = [] then runChannel debounce (pending ++ s) t2 rest
        else (t + debounce, jsTrim pending) :: runChannel debounce s t2 rest

/-- Replay a channel from an initially empty buffer. -/
def runChannelFromStart (debounce : ℕ) (frags : List (ℕ × List Char)) : List (ℕ × List Char) :=
  match frags with
  | [] => []
  | (t, s) :: rest => runChannel debounce s t rest

/-- Concatenation of the fragment texts, in arrival order. -/
def textsConcat (frags : List (ℕ × List Char)) : List Char :=
  frags.foldr (fun p acc => p.2 ++ acc) []

/-- Timestamp of the last fragment (`t` when there is none). -/
def lastTime (t : ℕ) (frags : List (ℕ × List Char)) : ℕ :=
  frags.foldl (fun _ p => p.1) t

/-- When every later fragment arrives before the running deadline, the whole
run coalesces into at most one finalized record at `lastTime + debounce`. -/
theorem runChannel_all_close (debounce : ℕ) (rest : List (ℕ × List Char)) :
    ∀ (pending : List Char) (t : ℕ),
      List.Chain (fun x y : ℕ => y < x + debounce) t (rest.map Prod.fst) →
      runChannel debounce pending t rest =
        if jsTrim (pending ++ textsConcat rest) = [] then []
        else [(lastTime t rest + debounce, jsTrim (pending ++ textsConcat rest))] := by
  induction rest with
  | nil =>
    intro pending t _
    simp [runChannel, textsConcat, lastTime]
  | cons hd tl ih =>
    intro pending t hchain
    obtain ⟨t2, s⟩ := hd
    rw [List.map_cons] at hchain
    cases hchain with
    | cons hlt htl =>
      rw [runChannel, if_pos hlt, ih (pending ++ s) t2 htl]
      rw [show textsConcat ((t2, s) :: tl) = s ++ textsConcat tl from rfl]
      rw [show lastTime t ((t2, s) :: tl) = lastTime t2 tl from rfl]
      rw [List.append_assoc]

/-- C4: for a channel receiving fragments whose inter-arrival gaps are each
smaller than `transcriptDebounceMs`, exactly one finalized Transcript is
emitted, its text is the trimmed concatenation of the fragments, and it is
emitted only once the debounce interval after the last fragment has elapsed;
each fragment resets the window and only one finalize occurs. -/
theorem transcriptDebounce (debounce t : ℕ) (s : List Char) (rest : List (ℕ × List Char))
    (hchain : List.Chain (fun x y : ℕ => y < x + debounce) t (rest.map Prod.fst))
    (hne : jsTrim (s ++ textsConcat rest) ≠ []) :
    runChannelFromStart debounce ((t, s) :: rest) =
      [(lastTime t rest + debounce, jsTrim (s ++ textsConcat rest))] := by
  rw [runChannelFromStart, runChannel_all_close debounce rest s t hchain, if_neg hne]

/-- C4 witness: fragments `Hel`, `lo wor`, `ld` at 0/500/1000 ms with the
default 1500 ms debounce produce exactly `[(2500, Hello world)]`. -/
theorem transcriptDebounce_witness :
    runChannelFromStart 1500
        [(0, "Hel".toList), (500, "lo wor".toList), (1000, "ld".toList)] =
      [(2500, "Hello world".toList)] := by
  have h := transcriptDebounce 1500 0 "Hel".toList [(500, "lo wor".toList), (1000, "ld".toList)]
    (by
      rw [List.map_cons, List.map_cons, List.map_nil]
      exact List.Chain.cons (by norm_num) (List.Chain.cons (by norm_num) List.Chain.nil))
    (by decide)
  rw [h]
  decide

/-! ### Session state machine: reconnection backoff (C2) -/

/-- The `ConnectionState` union of the hook. -/
inductive ConnState
  | idle | connecting | connected | reconnecting | error | disconnected
deriving DecidableEq

/-- The `reconnection` option block, with the hook's defaults. -/
structure ReconnCfg where
  maxAttempts : ℕ
  initialDelay : ℕ
  maxDelay : ℕ
  backoffFactor : ℕ
deriving DecidableEq

/-- Defaults: `maxAttempts ?? 5`, `initialDelay ?? 1000`, `maxDelay ?? 10000`,
`backoffFactor ?? 2`. -/
def defaultReconnCfg : ReconnCfg :=
  { maxAttempts := 5, initialDelay := 1000, maxDelay := 10000, backoffFactor := 2 }

/-- The refs driving reconnection: `reconnectAttemptsRef`, `reconnectDelayRef`
(never changed by the backoff itself) and the connection state. -/
structure ReconnState where
  attempts : ℕ
  delayBase : ℕ
  connState : ConnState
deriving DecidableEq

/-- The `socket.onclose` handler: on an abnormal close (code ≠ 1000) with
attempts remaining it increments the counter, schedules a reconnect after
`min(delayBase * backoffFactor ^ (attempts - 1), maxDelay)` and enters
`reconnecting`; with attempts exhausted it enters `error` and schedules
nothing; a normal close enters `disconnected` and schedules nothing.
The second component is the scheduled reconnect delay, if any. -/
def onCloseEvent (cfg : ReconnCfg) (code : ℕ) (s : ReconnState) : ReconnState × Option ℕ :=
  if code ≠ 1000 ∧ s.attempts < cfg.maxAttempts then
    let attempts' := s.attempts + 1
    let delay := min (s.delayBase * cfg.backoffFactor ^ (attempts' - 1)) cfg.maxDelay
    ({ s with attempts := attempts', connState := ConnState.reconnecting }, some delay)
  else if cfg.maxAttempts ≤ s.attempts then
    ({ s with connState := ConnState.error }, none)
  else
    ({ s with connState := ConnState.disconnected }, none)

/-- State at the start of a run of abnormal closes: `socket.onopen` has reset
the attempt counter, and `reconnectDelayRef` holds `initialDelay`. -/
def initReconnState (cfg : ReconnCfg) : ReconnState :=
  { attempts := 0, delayBase := cfg.initialDelay, connState := ConnState.connected }

/-- Apply `n` consecutive abnormal closes (code 1006) and collect the
scheduled reconnect delays in order. -/
def runAbnormalCloses (cfg : ReconnCfg) : ReconnState → ℕ → ReconnState × List ℕ
  | s, 0 => (s, [])
  | s, n + 1 =>
      let p := onCloseEvent cfg 1006 s
      let r := runAbnormalCloses cfg p.1 n
      (r.1, p.2.toList ++ r.2)

/-- C2: with the default config, the delay scheduled before reconnect attempt
`n` (1 ≤ n ≤ 5) is `min(1000·2^(n-1), 10000)`; six consecutive abnormal
closes schedule exactly the delays 1000, 2000, 4000, 8000, 10000 ms (no 6th
attempt), end in the `error` state, and a further abnormal close schedules
nothing. -/
theorem reconnectBackoff (n : ℕ) (h1 : 1 ≤ n) (h2 : n ≤ 5) :
    (runAbnormalCloses defaultReconnCfg (initReconnState defaultReconnCfg) n).2.getLast?
      = some (min (1000 * 2 ^ (n - 1)) 10000) ∧
    (runAbnormalCloses defaultReconnCfg (initReconnState defaultReconnCfg) 6).2
      = [1000, 2000, 4000, 8000, 10000] ∧
    (runAbnormalCloses defaultReconnCfg (initReconnState defaultReconnCfg) 6).1.connState
      = ConnState.error ∧
    (onCloseEvent defaultReconnCfg 1006
      (runAbnormalCloses defaultReconnCfg (initReconnState defaultReconnCfg) 5).1).2 = none := by
  interval_cases n <;> exact ⟨by decide, by decide, by decide, by decide⟩

/-- C2 witness: instantiation at attempt n = 3 (scheduled delay 4000 ms). -/
theorem reconnectBackoff_witness :
    (runAbnormalCloses defaultReconnCfg (initReconnState defaultReconnCfg) 3).2.getLast?
      = some (min (1000 * 2 ^ (3 - 1)) 10000) ∧
    (runAbnormalCloses defaultReconnCfg (initReconnState defaultReconnCfg) 6).2
      = [1000, 2000, 4000, 8000, 10000] ∧
    (runAbnormalCloses defaultReconnCfg (initReconnState defaultReconnCfg) 6).1.connState
      = ConnState.error ∧
    (onCloseEvent defaultReconnCfg 1006
      (runAbnormalCloses defaultReconnCfg (initReconnState defaultReconnCfg) 5).1).2 = none :=
  reconnectBackoff 3 (by decide) (by decide)

/-! ### `disconnect` (C3)

`disconnect` folds connected time into the metrics, stops frame capture and
mic capture (VAD, stream, worklet, input context), clears the audio queue and
playback flags, closes the playback and VAD audio contexts, clears both
transcript debounce timers and buffers and both streaming values, clears the
DOM-snapshot interval, closes the socket with code 1000 / reason
`User disconnected`, nulls the socket ref, sets the state to `idle`, clears
the transcript list and resets the reconnect counter and delay.

A reconnect scheduled by `socket.onclose` lives in an anonymous `setTimeout`
that is stored in no ref; `disconnect` has no handle to clear it, which the
field `pendingReconnectTimer` records. -/

/-- The metrics refs (`metricsRef.current`). -/
structure Metrics where
  audioChunksReceived : ℕ
  messagesReceived : ℕ
  reconnectCount : ℕ
  lastConnectedAt : Option ℕ
  totalConnectedTime : ℕ
deriving DecidableEq

/-- The session-level mutable state touched by `disconnect`: one field per
ref/state hook, with resources (`AudioContext`s, stream, worklet, intervals,
socket) modelled by their presence. -/
structure SessionState where
  connState : ConnState
  errorMsg : Option (List Char)
  metrics : Metrics
  frameTimerActive : Bool
  vadActive : Bool
  userSpeaking : Bool
  micStream : Bool
  worklet : Bool
  inputCtx : Bool
  playbackCtx : Bool
  vadAudioCtx : Bool
  audioQueue : List (List ℚ)
  playing : Bool
  speaking : Bool
  inputTimer : Option ℕ
  outputTimer : Option ℕ
  inputBuf : List Char
  outputBuf : List Char
  streamingText : Option (List Char)
  streamingUserText : Option (List Char)
  domSnapshotTimer : Bool
  pendingReconnectTimer : Bool
  socket : Bool
  transcripts : List (List Char)
  reconnectAttempts : ℕ
  reconnectDelay : ℕ
deriving DecidableEq

/-- The `disconnect` callback as a state transformer; the second component is
the close command issued to the transport (code and reason), if a socket was
present. -/
def disconnect (initialDelay now : ℕ) (s : SessionState) : SessionState × Option (ℕ × List Char) :=
  let m := s.metrics
  let m' :=
    match m.lastConnectedAt with
    | some t0 =>
        { m with
          totalConnectedTime := m.totalConnectedTime + (now - t0)
          lastConnectedAt := none }
    | none => m
  let closeCmd := if s.socket then some (1000, "User disconnected".toList) else none
  ({ connState := ConnState.idle
     errorMsg := s.errorMsg
     metrics := m'
     frameTimerActive := false
     vadActive := false
     userSpeaking := false
     micStream := false
     worklet := false
     inputCtx := false
     playbackCtx := false
     vadAudioCtx := false
     audioQueue := []
     playing := false
     speaking := false
     inputTimer := none
     outputTimer := none
     inputBuf := []
     outputBuf := []
     streamingText := none
     streamingUserText := none
     domSnapshotTimer := false
     pendingReconnectTimer := s.pendingReconnectTimer
     socket := false
     transcripts := []
     reconnectAttempts := 0
     reconnectDelay := initialDelay }, closeCmd)

/-- The reconnect `setTimeout` callback: it invokes `connect`, which proceeds
to open a fresh socket unless an open socket already exists. -/
def reconnectTimerFire (s : SessionState) : SessionState :=
  if s.pendingReconnectTimer then
    if s.socket then { s with pendingReconnectTimer := false }
    else
      { s with
        pendingReconnectTimer := false
        connState := ConnState.connecting
        socket := true }
  else s

/-- C3 (amended): `disconnect` is idempotent and safe from every state —
after each call the state is `idle`, capture and frame capture are stopped,
the audio queue and both transcript buffers are cleared, the debounce,
frame-capture and DOM-snapshot timers are cancelled, the transport is closed
with the normal code 1000, and a normal (code 1000) close event never
schedules a reconnect; however an already-scheduled reconnection backoff
timer is NOT cancelled (it is kept in no ref), so it survives the call. -/
theorem disconnectIdempotent (initialDelay now now2 : ℕ) (s : SessionState)
    (cfg : ReconnCfg) (rs : ReconnState) :
    (disconnect initialDelay now s).1.connState = ConnState.idle ∧
    (disconnect initialDelay now2 (disconnect initialDelay now s).1).1
      = (disconnect initialDelay now s).1 ∧
    (disconnect initialDelay now s).1.micStream = false ∧
    (disconnect initialDelay now s).1.worklet = false ∧
    (disconnect initialDelay now s).1.vadActive = false ∧
    (disconnect initialDelay now s).1.frameTimerActive = false ∧
    (disconnect initialDelay now s).1.audioQueue = [] ∧
    (disconnect initialDelay now s).1.inputBuf = [] ∧
    (disconnect initialDelay now s).1.outputBuf = [] ∧
    (disconnect initialDelay now s).1.inputTimer = none ∧
    (disconnect initialDelay now s).1.outputTimer = none ∧
    (disconnect initialDelay now s).1.domSnapshotTimer = false ∧
    (disconnect initialDelay now s).2
      = (if s.socket then some (1000, "User disconnected".toList) else none) ∧
    (disconnect initialDelay now s).1.pendingReconnectTimer = s.pendingReconnectTimer ∧
    (onCloseEvent cfg 1000 rs).2 = none := by
  refine ⟨?_, ?_, ?_, ?_, ?_, ?_, ?_, ?_, ?_, ?_, ?_, ?_, ?_, ?_, ?_⟩ <;>
    first
    | (cases h : s.metrics.lastConnectedAt <;> simp [disconnect, h])
    | (simp only [onCloseEvent]
       rw [if_neg (by simp)]
       by_cases hm : cfg.maxAttempts ≤ rs.attempts
       · rw [if_pos hm]
       · rw [if_neg hm])

/-- A concrete mid-session state used to instantiate the C3 theorem. -/
def sampleSession : SessionState :=
  { connState := ConnState.connected
    errorMsg := none
    metrics :=
      { audioChunksReceived := 3, messagesReceived := 5, reconnectCount := 0
        lastConnectedAt := some 2000, totalConnectedTime := 0 }
    frameTimerActive := true
    vadActive := true
    userSpeaking := true
    micStream := true
    worklet := true
    inputCtx := true
    playbackCtx := true
    vadAudioCtx := false
    audioQueue := [[1/2, -1/4]]
    playing := true
    speaking := true
    inputTimer := some 4200
    outputTimer := none
    inputBuf := "Hel".toList
    outputBuf := []
    streamingText := none
    streamingUserText := some "Hel".toList
    domSnapshotTimer := true
    pendingReconnectTimer := false
    socket := true
    transcripts := ["hi".toList]
    reconnectAttempts := 0
    reconnectDelay := 1000 }

/-- C3 witness: instantiation at a concrete mid-session state. -/
theorem disconnectIdempotent_witness :
    (disconnect 1000 5000 sampleSession).1.connState = ConnState.idle ∧
    (disconnect 1000 6000 (disconnect 1000 5000 sampleSession).1).1
      = (disconnect 1000 5000 sampleSession).1 ∧
    (disconnect 1000 5000 sampleSession).1.micStream = false ∧
    (disconnect 1000 5000 sampleSession).1.worklet = false ∧
    (disconnect 1000 5000 sampleSession).1.vadActive = false ∧
    (disconnect 1000 5000 sampleSession).1.frameTimerActive = false ∧
    (disconnect 1000 5000 sampleSession).1.audioQueue = [] ∧
    (disconnect 1000 5000 sampleSession).1.inputBuf = [] ∧
    (disconnect 1000 5000 sampleSession).1.outputBuf = [] ∧
    (disconnect 1000 5000 sampleSession).1.inputTimer = none ∧
    (disconnect 1000 5000 sampleSession).1.outputTimer = none ∧
    (disconnect 1000 5000 sampleSession).1.domSnapshotTimer = false ∧
    (disconnect 1000 5000 sampleSession).2
      = (if sampleSession.socket then some (1000, "User disconnected".toList) else none) ∧
    (disconnect 1000 5000 sampleSession).1.pendingReconnectTimer
      = sampleSession.pendingReconnectTimer ∧
    (onCloseEvent defaultReconnCfg 1000 (initReconnState defaultReconnCfg)).2 = none :=
  disconnectIdempotent 1000 5000 6000 sampleSession defaultReconnCfg
    (initReconnState defaultReconnCfg)

/-- C3 counterexample input: a session in `reconnecting` with a scheduled
backoff timer (the `setTimeout` from `socket.onclose` is pending). -/
def reconnSample : SessionState :=
  { connState := ConnState.reconnecting
    errorMsg := none
    metrics :=
      { audioChunksReceived := 7, messagesReceived := 9, reconnectCount := 1
        lastConnectedAt := none, totalConnectedTime := 1234 }
    frameTimerActive := false
    vadActive := false
    userSpeaking := false
    micStream := false
    worklet := false
    inputCtx := false
    playbackCtx := true
    vadAudioCtx := false
    audioQueue := []
    playing := false
    speaking := false
    inputTimer := none
    outputTimer := none
    inputBuf := []
    outputBuf := []
    streamingText := none
    streamingUserText := none
    domSnapshotTimer := false
    pendingReconnectTimer := true
    socket := false
    transcripts := []
    reconnectAttempts := 1
    reconnectDelay := 1000 }

/-- C3 counterexample: `disconnect` does NOT cancel all pending timers — the
reconnection backoff `setTimeout` is held in no ref, survives `disconnect`,
and when it fires `connect` proceeds, so a reconnection attempt is made after
`disconnect` despite the normal close. -/
theorem disconnectReconnectTimerCounterexample :
    (disconnect 1000 0 reconnSample).1.pendingReconnectTimer = true ∧
    (reconnectTimerFire (disconnect 1000 0 reconnSample).1).connState
      = ConnState.connecting ∧
    (reconnectTimerFire (disconnect 1000 0 reconnSample).1).socket = true := by
  refine ⟨by decide, by decide, by decide⟩

/-! ### Outbound messages, audio ingress gating (C7) and tool dispatch (C8) -/

/-- The payload of an outbound `tool_result` message: the handler's result, or
the `{error: String(err)}` object built in the rejection path. -/
inductive ToolResultPayload
  | success (v : List Char)
  | errorPayload (msg : List Char)
deriving DecidableEq

/-- Outbound transport messages relevant to the claims. -/
inductive OutboundMsg
  | audio (mimeType : List Char) (data : List ℤ)
  | text (t : List Char)
  | toolResult (toolCallId : List Char) (payload : ToolResultPayload)
  | frame (data : List Char)
deriving DecidableEq

/-- The values visible to `worklet.port.onmessage`.  The handler is installed
once, inside the `startMicCapture` call made on `setup_complete`; JS closure
semantics make it read
* `isMuted` — the React STATE VALUE closed over when the handler was
  installed (captured here as `capturedMuted`); later `setMuted` calls change
  the state (`isMuted`, the hook's local mute flag) but never this closure,
  and nothing re-installs the handler on mute changes (the synced
  `isMutedRef` exists but is not consulted here);
* `isUserSpeakingRef.current` and `socketRef.current` — refs, always fresh;
* `vad` — the option, constant for the hook instance. -/
structure MicGateState where
  isMuted : Bool
  capturedMuted : Bool
  vadEnabled : Bool
  userSpeaking : Bool
  socketOpen : Bool
deriving DecidableEq

/-- `worklet.port.onmessage`: drop the captured frame when the CLOSED-OVER
mute value is set; drop it when VAD is enabled and the user-speaking ref is
clear; otherwise frame the encoded samples into an `audio` message provided
the socket is open.  Note the gate reads `capturedMuted`, not the current
`isMuted` flag. -/
def onWorkletMessage (g : MicGateState) (frame : List ℚ) : Option OutboundMsg :=
  if g.capturedMuted then none
  else if g.vadEnabled && !g.userSpeaking then none
  else if g.socketOpen then
    some (OutboundMsg.audio "audio/pcm;rate=16000".toList (frame.map encodeSample))
  else none

/-- The session after mic capture started while unmuted and the user then
called `setMuted(true)`: the hook's mute flag is true but the handler's
closed-over value is still false; VAD disabled, socket open. -/
def staleMuteState : MicGateState :=
  { isMuted := true, capturedMuted := false, vadEnabled := false
    userSpeaking := false, socketOpen := true }

/-- Capture started while already muted: the closed-over value gates. -/
def freshMuteState : MicGateState :=
  { isMuted := true, capturedMuted := true, vadEnabled := false
    userSpeaking := false, socketOpen := true }

/-- C7: the claim fails on the code.  `worklet.port.onmessage` gates on the
`isMuted` value captured when capture started, not on the current flag: after
a mid-session `setMuted(true)` (mute flag true, captured value false) a frame
IS transmitted, violating "no outbound audio message is ever sent while the
local mute flag is true"; only when capture began muted does the gate drop
frames, and the VAD gate (read through a ref) works as claimed. -/
theorem micMuteGateStale :
    staleMuteState.isMuted = true ∧
    (onWorkletMessage staleMuteState [(1 : ℚ)/2]).isSome = true ∧
    onWorkletMessage freshMuteState [(1 : ℚ)/2] = none ∧
    (∀ g : MicGateState, ∀ frame : List ℚ,
      (onWorkletMessage g frame).isSome
        = (!g.capturedMuted && (!g.vadEnabled || g.userSpeaking) && g.socketOpen)) := by
  refine ⟨rfl, by decide, by decide, ?_⟩
  intro g frame
  obtain ⟨m, cm, v, u, o⟩ := g
  cases cm <;> cases v <;> cases u <;> cases o <;> simp [onWorkletMessage]

/-- The reserved UI-command tool names recognized by the `tool_call` case. -/
def uiCommandNames : List (List Char) :=
  ["highlight_element".toList, "show_action_button".toList, "update_checklist".toList,
   "think_aloud".toList, "ask_user".toList, "run_diagnostic".toList,
   "escalate_to_human".toList]

/-- The upstream payload produced from the handler's settled promise: the
result on fulfilment, `{error: String(err)}` on rejection. -/
def toolPayloadOf (outcome : Except (List Char) (List Char)) : ToolResultPayload :=
  match outcome with
  | Except.ok r => ToolResultPayload.success r
  | Except.error e => ToolResultPayload.errorPayload e

/-- The `tool_call` case of `socket.onmessage`: UI commands are dispatched
locally (or to `onUICommand`) and answer nothing upstream; other names, when a
tool-call handler is configured, are forwarded to it and its settled outcome
is sent back as a single `tool_result` correlated by the original id (if the
socket is still open when the promise settles). -/
def handleToolCallMsg (toolCallId toolName : List Char) (hasToolCallHandler : Bool)
    (outcome : Except (List Char) (List Char)) (socketOpen : Bool) : List OutboundMsg :=
  if uiCommandNames.contains toolName then []
  else if hasToolCallHandler then
    if socketOpen then [OutboundMsg.toolResult toolCallId (toolPayloadOf outcome)] else []
  else []

/-- C8: every inbound `tool_call` forwarded to the external handler is
answered with exactly one `tool_result` correlated by the original id — the
handler's result on success, its error converted to an error payload on
throw/reject — so the remote AI is never left awaiting a response. -/
theorem toolCallAlwaysAnswered (toolCallId toolName : List Char)
    (outcome : Except (List Char) (List Char))
    (hname : uiCommandNames.contains toolName = false) :
    handleToolCallMsg toolCallId toolName true outcome true
      = [OutboundMsg.toolResult toolCallId (toolPayloadOf outcome)] ∧
    (handleToolCallMsg toolCallId toolName true outcome true).length = 1 := by
  rw [handleToolCallMsg, if_neg (by rw [hname]; exact Bool.false_ne_true), if_pos rfl, if_pos rfl]
  exact ⟨rfl, rfl⟩

/-- C8 witness: a throwing handler for tool `get_weather` still yields exactly
one correlated `tool_result`, carrying the error payload. -/
theorem toolCallAlwaysAnswered_witness :
    handleToolCallMsg "call_1".toList "get_weather".toList true
        (Except.error "boom".toList) true
      = [OutboundMsg.toolResult "call_1".toList (toolPayloadOf (Except.error "boom".toList))] ∧
    (handleToolCallMsg "call_1".toList "get_weather".toList true
        (Except.error "boom".toList) true).length = 1 :=
  toolCallAlwaysAnswered "call_1".toList "get_weather".toList (Except.error "boom".toList)
    (by decide)

/-! ### Workflow execution engine (C1, C10)

`registerWorkflow` fills a registry map; `executeWorkflow` resolves the id,
publishes a failed execution when it is unknown, otherwise resets the
pause/cancel flags and drives the step loop.  In this synchronous replay the
advisory pause/cancel flags stay `false` (nothing inside a run mutates them),
so the pause-spin and cancel checks of the source loop are identity; the
`fuel` parameter bounds the number of loop iterations, and the boolean
returned by `runWorkflowLoop` records whether the loop genuinely terminated
(only then does the source's final running→completed fix-up apply).  The
source also threads the `variables` record into `executeWorkflowStep`, which
never reads it; the field is kept on the execution (as `vars`, since
`variables` is reserved in Lean) and dropped from the step parameters. -/

inductive CheckKind | elemExists | elemVisible | containsText
deriving DecidableEq

structure StepCond where
  selector : List Char
  check : CheckKind
  value : Option (List Char)
deriving DecidableEq

structure DomElem where
  width : ℕ
  height : ℕ
  textContent : List Char
deriving DecidableEq

def Dom : Type := List Char → Option DomElem

def checkCondition (dom : Dom) : Option StepCond → Bool
  | none => true
  | some c =>
      match dom c.selector with
      | none => false
      | some el =>
          match c.check with
          | CheckKind.elemExists => true
          | CheckKind.elemVisible => decide (0 < el.width) && decide (0 < el.height)
          | CheckKind.containsText => containsSeq (c.value.getD []) el.textContent

inductive StepType | browserControl | wait | condition | aiPrompt
deriving DecidableEq

inductive NextField
  | undef
  | single (id : List Char)
  | multi (ids : List (List Char))
deriving DecidableEq

structure WorkflowStep where
  id : List Char
  type : StepType
  action : Option (List Char)
  args : List (List Char × List Char)
  waitMs : Option ℕ
  condition : Option StepCond
  prompt : Option (List Char)
  next : NextField
  onError : Option (List Char)
deriving DecidableEq

inductive BCData
  | conditionMet (b : Bool)
  | payload (s : List Char)
deriving DecidableEq

structure BCResult where
  success : Bool
  message : Option (List Char)
  data : Option BCData
  error : Option (List Char)
deriving DecidableEq

structure BCCommand where
  toolCallId : List Char
  action : List Char
  args : List (List Char × List Char)
deriving DecidableEq

def failResult (e : List Char) : BCResult :=
  { success := false, message := none, data := none, error := some e }

def jsStrTruthy : Option (List Char) → Bool
  | none => false
  | some s => !s.isEmpty

def jsOrStr (a b : Option (List Char)) : Option (List Char) :=
  if jsStrTruthy a then a else b

def toNextArray : NextField → List (Option (List Char))
  | NextField.undef => [none]
  | NextField.single s => [some s]
  | NextField.multi l => l.map some

def nextHead : NextField → Option (List Char)
  | NextField.undef => none
  | NextField.single s => some s
  | NextField.multi l => l.get? 0

def waitMsRepr : Option ℕ → List Char
  | some n => Nat.toDigits 10 n
  | none => "undefined".toList

structure StepOutcome where
  result : BCResult
  nextStepId : Option (List Char)
deriving DecidableEq

def executeWorkflowStep (dom : Dom) (bcExec : BCCommand → BCResult) (socketOpen : Bool)
    (now : ℕ) (step : WorkflowStep) : StepOutcome × List OutboundMsg :=
  if step.condition.isSome && !(checkCondition dom step.condition) then
    ({ result := failResult "Condition not met".toList, nextStepId := step.onError }, [])
  else
    match step.type with
    | StepType.browserControl =>
        match step.action with
        | none => ({ result := failResult "No action specified".toList, nextStepId := none }, [])
        | some a =>
            let cmd : BCCommand :=
              { toolCallId := "wf_".toList ++ step.id ++ "_".toList ++ Nat.toDigits 10 now
                action := a
                args := step.args }
            let result := bcExec cmd
            ({ result := result
               nextStepId := if result.success then nextHead step.next else step.onError }, [])
    | StepType.wait =>
        ({ result :=
             { success := true
               message := some ("Waited ".toList ++ waitMsRepr step.waitMs ++ "ms".toList)
               data := none, error := none }
           nextStepId := nextHead step.next }, [])
    | StepType.condition =>
        let conditionMet := checkCondition dom step.condition
        let nextSteps := toNextArray step.next
        ({ result :=
             { success := true, message := none
               data := some (BCData.conditionMet conditionMet), error := none }
           nextStepId :=
             if conditionMet then nextSteps.getD 0 none
             else jsOrStr (nextSteps.getD 1 none) step.onError }, [])
    | StepType.aiPrompt =>
        let msgs :=
          match step.prompt with
          | some p => if !p.isEmpty && socketOpen then [OutboundMsg.text p] else []
          | none => []
        ({ result :=
             { success := true, message := some "AI prompt sent".toList
               data := none, error := none }
           nextStepId := nextHead step.next }, msgs)

inductive WfStatus | running | paused | completed | failed
deriving DecidableEq

structure HistEntry where
  stepId : List Char
  result : BCResult
  timestamp : ℕ
deriving DecidableEq

structure WorkflowExecution where
  workflowId : List Char
  status : WfStatus
  currentStepId : List Char
  vars : List (List Char × List Char)
  history : List HistEntry
  error : Option (List Char)
deriving DecidableEq

structure Workflow where
  id : List Char
  name : List Char
  entryPoint : List Char
  steps : List (List Char × WorkflowStep)
  vars : List (List Char × List Char)
deriving DecidableEq

structure WfSessionState where
  registry : List (List Char × Workflow)
  workflowExecution : Option WorkflowExecution
  paused : Bool
  cancelled : Bool
deriving DecidableEq

def lookupStep (steps : List (List Char × WorkflowStep)) (k : List Char) : Option WorkflowStep :=
  (steps.find? (fun p => p.1 == k)).map Prod.snd

def mergeVars (a b : List (List Char × List Char)) : List (List Char × List Char) :=
  a.filter (fun p => !(b.any (fun q => q.1 == p.1))) ++ b

def runWorkflowLoop (dom : Dom) (bcExec : BCCommand → BCResult) (socketOpen : Bool) (now : ℕ)
    (wf : Workflow) : ℕ → WorkflowExecution → Option (List Char) →
      WorkflowExecution × List OutboundMsg × Bool
  | 0, exec, _ => (exec, [], false)
  | fuel + 1, exec, cur =>
      if jsStrTruthy cur = false then (exec, [], true)
      else
        let curId := cur.getD []
        match lookupStep wf.steps curId with
        | none =>
            ({ exec with
               status := WfStatus.failed
               error := some ("Step not found: ".toList ++ curId) }, [], true)
        | some step =>
            let exec1 := { exec with currentStepId := curId }
            let so := executeWorkflowStep dom bcExec socketOpen now step
            let exec2 :=
              { exec1 with history := exec1.history ++ [⟨curId, so.1.result, now⟩] }
            if so.1.result.success = false ∧ jsStrTruthy step.onError = false then
              ({ exec2 with status := WfStatus.failed, error := so.1.result.error }, so.2, true)
            else
              let r := runWorkflowLoop dom bcExec socketOpen now wf fuel exec2 so.1.nextStepId
              (r.1, so.2 ++ r.2.1, r.2.2)

def executeWorkflow (dom : Dom) (bcExec : BCCommand → BCResult) (socketOpen : Bool) (now : ℕ)
    (fuel : ℕ) (id : List Char) (initVars : List (List Char × List Char))
    (st : WfSessionState) : WorkflowExecution × WfSessionState × List OutboundMsg :=
  match (st.registry.find? (fun p => p.1 == id)).map Prod.snd with
  | none =>
      let execution : WorkflowExecution :=
        { workflowId := id, status := WfStatus.failed, currentStepId := []
          vars := [], history := []
          error := some ("Workflow not found: ".toList ++ id) }
      (execution, { st with workflowExecution := some execution }, [])
  | some wf =>
      let vars := mergeVars wf.vars initVars
      let exec0 : WorkflowExecution :=
        { workflowId := id, status := WfStatus.running, currentStepId := wf.entryPoint
          vars := vars, history := [], error := none }
      let st1 :=
        { st with paused := false, cancelled := false, workflowExecution := some exec0 }
      let r := runWorkflowLoop dom bcExec socketOpen now wf fuel exec0 (some wf.entryPoint)
      let efin :=
        if r.2.2 && r.1.status == WfStatus.running then
          { r.1 with status := WfStatus.completed }
        else r.1
      (efin, { st1 with workflowExecution := some efin }, r.2.1)

def bcExecNever : BCCommand → BCResult := fun _ => failResult "no-op".toList

def domEmpty : Dom := fun _ => none

def domWithReady : Dom := fun sel =>
  if sel == "#ready".toList then
    some { width := 10, height := 5, textContent := "ok".toList }
  else none

def condBranchStep : WorkflowStep :=
  { id := "s1".toList, type := StepType.condition, action := none, args := []
    waitMs := none
    condition := some { selector := "#ready".toList, check := CheckKind.elemExists, value := none }
    prompt := none
    next := NextField.multi ["A".toList, "B".toList]
    onError := some "E".toList }

theorem conditionFalseRoutesToOnError :
    (executeWorkflowStep domWithReady bcExecNever true 0 condBranchStep).1
      = { result := { success := true, message := none
                      data := some (BCData.conditionMet true), error := none }
          nextStepId := some "A".toList } ∧
    (executeWorkflowStep domEmpty bcExecNever true 0 condBranchStep).1
      = { result := failResult "Condition not met".toList
          nextStepId := some "E".toList } ∧
    some "E".toList ≠ some "B".toList := by
  exact ⟨by decide, by decide, by decide⟩

def notFoundExecution (id : List Char) : WorkflowExecution :=
  { workflowId := id, status := WfStatus.failed, currentStepId := []
    vars := [], history := []
    error := some ("Workflow not found: ".toList ++ id) }

theorem executeWorkflowNotFound (dom : Dom) (bcExec : BCCommand → BCResult)
    (socketOpen : Bool) (now fuel : ℕ) (id : List Char)
    (initVars : List (List Char × List Char)) (st : WfSessionState)
    (h : st.registry.find? (fun p => p.1 == id) = none) :
    executeWorkflow dom bcExec socketOpen now fuel id initVars st
      = (notFoundExecution id,
         { st with workflowExecution := some (notFoundExecution id) }, []) ∧
    (notFoundExecution id).status = WfStatus.failed ∧
    (notFoundExecution id).history = [] ∧
    (notFoundExecution id).currentStepId = [] ∧
    (notFoundExecution id).vars = [] ∧
    (notFoundExecution id).error = some ("Workflow not found: ".toList ++ id) := by
  refine ⟨?_, rfl, rfl, rfl, rfl, rfl⟩
  rw [executeWorkflow, h]
  rfl

def emptyWfState : WfSessionState :=
  { registry := [], workflowExecution := none, paused := true, cancelled := false }

theorem executeWorkflowNotFound_witness :
    executeWorkflow domEmpty bcExecNever true 0 10 "missing".toList [] emptyWfState
      = (notFoundExecution "missing".toList,
         { emptyWfState with
             workflowExecution := some (notFoundExecution "missing".toList) }, []) ∧
    (notFoundExecution "missing".toList).status = WfStatus.failed ∧
    (notFoundExecution "missing".toList).history = [] ∧
    (notFoundExecution "missing".toList).currentStepId = [] ∧
    (notFoundExecution "missing".toList).vars = [] ∧
    (notFoundExecution "missing".toList).error
      = some ("Workflow not found: ".toList ++ "missing".toList) :=
  executeWorkflowNotFound domEmpty bcExecNever true 0 10 "missing".toList [] emptyWfState
    (by decide)

end GeminiLive
